import Mathlib

/-!
Shallow embedding of the roller-coaster track engine
(tntj20/roller-coaster-builder) and verification of the frozen claims.

The geometry side (barrel-roll evaluator, hybrid path sampler, section
progress assignment) is embedded over the real numbers: JavaScript
doubles are modelled as exact reals.  The store side (zustand actions
`removeTrackPoint`, `stopRide`, the ride-progress overflow step and
`importCoaster`) is embedded as explicit state-passing functions; JSON
values reaching `importCoaster` are modelled by an inductive `JValue`
with rational numbers (every number produced by `JSON.parse` from valid
JSON is finite).
-/

open Real

/-! ## Vectors: the subset of THREE.Vector3 the engine uses -/

/-- A 3D vector with real components, modelling `THREE.Vector3`. -/
@[ext]
structure Vec3 where
  x : ℝ
  y : ℝ
  z : ℝ

namespace Vec3

noncomputable instance : Add Vec3 := ⟨fun a b => ⟨a.x + b.x, a.y + b.y, a.z + b.z⟩⟩

noncomputable instance : Sub Vec3 := ⟨fun a b => ⟨a.x - b.x, a.y - b.y, a.z - b.z⟩⟩

noncomputable instance : SMul ℝ Vec3 := ⟨fun c v => ⟨c * v.x, c * v.y, c * v.z⟩⟩

instance : Zero Vec3 := ⟨⟨0, 0, 0⟩⟩

/-- `THREE.Vector3.dot`. -/
noncomputable def dot (a b : Vec3) : ℝ := a.x * b.x + a.y * b.y + a.z * b.z

/-- `THREE.Vector3.cross` (`crossVectors`). -/
noncomputable def cross (a b : Vec3) : Vec3 :=
  ⟨a.y * b.z - a.z * b.y, a.z * b.x - a.x * b.z, a.x * b.y - a.y * b.x⟩

/-- `THREE.Vector3.lengthSq`. -/
noncomputable def lengthSq (v : Vec3) : ℝ := v.dot v

/-- `THREE.Vector3.length`. -/
noncomputable def length (v : Vec3) : ℝ := Real.sqrt v.lengthSq

/-- `THREE.Vector3.normalize`: divides by `length() || 1`, so the zero
vector is left unchanged. -/
noncomputable def normalize (v : Vec3) : Vec3 :=
  (1 / (if v.length = 0 then 1 else v.length)) • v

end Vec3

/-! ## Barrel-roll (loop) closed form

From `sampleBarrelRollAnalytically` in CoasterCar.tsx / RideCamera.tsx
(the Track.tsx copy additionally returns a `normal`; the claims cite the
three-field version). -/

/-- Resolved loop frame (`BarrelRollFrame` interface). -/
structure BarrelRollFrame where
  entryPos : Vec3
  forward : Vec3
  up : Vec3
  right : Vec3
  radius : ℝ
  pitch : ℝ

/-- The eased angle `theta = twoPi * (t - Math.sin(twoPi * t) / twoPi)`. -/
noncomputable def easedTheta (t : ℝ) : ℝ :=
  (2 * π) * (t - Real.sin ((2 * π) * t) / (2 * π))

/-- `dThetaDt = twoPi * (1 - Math.cos(twoPi * t))`. -/
noncomputable def dThetaDt (t : ℝ) : ℝ :=
  (2 * π) * (1 - Real.cos ((2 * π) * t))

/-- The `{point, tangent, up}` result shape of the samplers. -/
structure Frame where
  point : Vec3
  tangent : Vec3
  up : Vec3

/-- `sampleBarrelRollAnalytically(frame, t)`. -/
noncomputable def sampleBarrelRollAnalytically (frame : BarrelRollFrame) (t : ℝ) : Frame :=
  let theta := easedTheta t
  let dth := dThetaDt t
  let point := frame.entryPos + (frame.pitch * t) • frame.forward
    + (frame.radius * (Real.cos theta - 1)) • frame.right
    + (frame.radius * Real.sin theta) • frame.up
  let tangent := (frame.pitch • frame.forward
    + (-frame.radius * Real.sin theta * dth) • frame.right
    + (frame.radius * Real.cos theta * dth) • frame.up).normalize
  let rotatedUp := ((Real.cos theta) • frame.up + (-(Real.sin theta)) • frame.right).normalize
  ⟨point, tangent, rotatedUp⟩

/-! ## Section table and hybrid sampler

From the `TrackSection` interface and `sampleHybridTrack` in
CoasterCar.tsx / RideCamera.tsx.  In the TypeScript interface the
kind-specific fields (`rollFrame`, `splineStartT`, `splineEndT`) are
optional; every section the builders construct carries the fields of its
kind, which the inductive `SectionKind` encodes.  `pointIndex` is
likewise always set by the builders (the sampler reads it with `?? 0`). -/

inductive SectionKind
  | roll (rollFrame : BarrelRollFrame) (pointIndex : ℕ)
  | spline (splineStartT splineEndT : ℝ) (pointIndex : ℕ)

structure TrackSection where
  startProgress : ℝ
  endProgress : ℝ
  arcLength : ℝ
  kind : SectionKind

/-- The two methods of `THREE.CatmullRomCurve3` the sampler calls; the
curve object is an argument of `sampleHybridTrack`, abstracted here by
its query interface. -/
structure Spline where
  getPoint : ℝ → Vec3
  getTangent : ℝ → Vec3

/-- `LoopSegment` from useRollerCoaster.tsx. -/
structure LoopSeg where
  id : String
  entryPointId : String
  radius : ℝ
  pitch : ℝ

/-- The `{id, position}` view of a track point the sampler receives. -/
structure TrackPointRef where
  id : String
  position : Vec3

/-- `sampleHybridTrack`'s result, RideCamera.tsx shape (with `inRoll`). -/
structure HybridSample where
  point : Vec3
  tangent : Vec3
  up : Vec3
  inRoll : Bool

/-- `progress = Math.max(0, Math.min(progress, 0.9999))`. -/
noncomputable def clampProgress (p : ℝ) : ℝ := max 0 (min p 0.9999)

/-- `progress >= s.startProgress && progress < s.endProgress`. -/
noncomputable def sectionContains (p : ℝ) (s : TrackSection) : Bool :=
  decide (s.startProgress ≤ p) && decide (p < s.endProgress)

/-- The sampler's section lookup: first section whose half-open progress
range contains `p`, else the last section. -/
noncomputable def chooseSection (sections : List TrackSection) (p : ℝ) : Option TrackSection :=
  match sections.find? (sectionContains p) with
  | some s => some s
  | none => sections.getLast?

/-- The `loopMap` built with `Map.set` over `loopSegments` keyed by
`entryPointId`: for duplicate keys the last write wins. -/
def lookupLoop (loopSegments : List LoopSeg) (id : String) : Option LoopSeg :=
  loopSegments.reverse.find? (fun s => s.entryPointId == id)

/-- The forward displacement accumulated in the sampler's spline branch:
for every point index `i` with `i < numPoints && i <= pointIndex` whose
point carries a loop, add `pitch` times the normalized spline tangent at
`i / totalSplineSegments`. -/
noncomputable def rollOffsetAt (spline : Spline) (loopSegments : List LoopSeg)
    (trackPoints : List TrackPointRef) (isLooped : Bool) (pointIndex : ℕ) : Vec3 :=
  let numPoints := trackPoints.length
  let totalSplineSegments : ℕ := if isLooped then numPoints else numPoints - 1
  (List.range (min numPoints (pointIndex + 1))).foldl (fun acc i =>
    match lookupLoop loopSegments ((trackPoints.getD i ⟨"", 0⟩).id) with
    | some loopSeg =>
        acc + loopSeg.pitch • (spline.getTangent ((i : ℝ) / (totalSplineSegments : ℝ))).normalize
    | none => acc) 0

/-- The spline branch's per-call `up`: project world-up out of the
tangent; if the remainder is too short, project world-X instead. -/
noncomputable def splineUp (tangent : Vec3) : Vec3 :=
  let up0 : Vec3 := ⟨0, 1, 0⟩
  let u := up0 - (up0.dot tangent) • tangent
  if 0.001 < u.lengthSq then
    u.normalize
  else
    let u1 : Vec3 := ⟨1, 0, 0⟩
    (u1 - (u1.dot tangent) • tangent).normalize

/-- `sampleHybridTrack` (RideCamera.tsx variant, which also reports
`inRoll`; CoasterCar.tsx is identical minus that flag). -/
noncomputable def sampleHybridTrack (progress : ℝ) (sections : List TrackSection)
    (spline : Spline) (loopSegments : List LoopSeg) (trackPoints : List TrackPointRef)
    (isLooped : Bool) : Option HybridSample :=
  if sections.isEmpty then none
  else
    let p := clampProgress progress
    match chooseSection sections p with
    | none => none
    | some sec =>
      let localT := (p - sec.startProgress) / (sec.endProgress - sec.startProgress)
      match sec.kind with
      | SectionKind.roll rollFrame _ =>
        let s := sampleBarrelRollAnalytically rollFrame localT
        some ⟨s.point, s.tangent, s.up, true⟩
      | SectionKind.spline splineStartT splineEndT pointIndex =>
        let splineT := splineStartT + localT * (splineEndT - splineStartT)
        let basePoint := spline.getPoint splineT
        let tangent := (spline.getTangent splineT).normalize
        let point := basePoint + rollOffsetAt spline loopSegments trackPoints isLooped pointIndex
        some ⟨point, tangent, splineUp tangent, false⟩

/-! ## Progress assignment (the normalization loop closing the sections
`useMemo` in CoasterCar.tsx / RideCamera.tsx) -/

/-- Total arc length: `accumulatedLength`, the sum of every pushed
section's `arcLength`. -/
noncomputable def sumArcLengths (ss : List TrackSection) : ℝ :=
  (ss.map (fun s => s.arcLength)).sum

/-- The final loop of the sections `useMemo`:
`startProgress := runningLength / accumulatedLength; runningLength +=
arcLength; endProgress := runningLength / accumulatedLength`. -/
noncomputable def assignProgress (total : ℝ) : ℝ → List TrackSection → List TrackSection
  | _, [] => []
  | running, s :: rest =>
    { s with startProgress := running / total,
             endProgress := (running + s.arcLength) / total }
      :: assignProgress total (running + s.arcLength) rest

/-! ## Store model (useRollerCoaster.tsx)

JSON values handed to `importCoaster` after `JSON.parse`: numbers are
rationals (valid JSON cannot produce `NaN`/`Infinity`, so every parsed
number is finite), `undefined` (an absent property) is `Option.none`. -/

inductive JValue where
  | null
  | bool (b : Bool)
  | num (q : ℚ)
  | str (s : String)
  | arr (elems : List JValue)
  | obj (fields : List (String × JValue))

/-- Property access `v.key`: defined only on objects (later duplicate
keys win, as in `JSON.parse`); on every other value it is `undefined`. -/
def getProp : JValue → String → Option JValue
  | JValue.obj fields, key => (fields.reverse.find? (fun f => f.1 == key)).map (fun f => f.2)
  | _, _ => none

/-- JavaScript truthiness of a possibly-`undefined` value. -/
def jsTruthy : Option JValue → Bool
  | none => false
  | some JValue.null => false
  | some (JValue.bool b) => b
  | some (JValue.num q) => !(q == 0)
  | some (JValue.str s) => !(s == "")
  | some (JValue.arr _) => true
  | some (JValue.obj _) => true

/-- `typeof v === 'object'` (true for `null`, arrays and objects). -/
def typeofObject : Option JValue → Bool
  | some JValue.null => true
  | some (JValue.arr _) => true
  | some (JValue.obj _) => true
  | _ => false

/-- `typeof v === 'number'`. -/
def isNumberVal : Option JValue → Bool
  | some (JValue.num _) => true
  | _ => false

/-- `typeof v === 'string'`. -/
def isStringVal : Option JValue → Bool
  | some (JValue.str _) => true
  | _ => false

/-- `Array.isArray(v)`. -/
def isArrayVal : Option JValue → Bool
  | some (JValue.arr _) => true
  | _ => false

/-- `Array.isArray(v) && v.length === 3`. -/
def is3Array : Option JValue → Bool
  | some (JValue.arr es) => es.length == 3
  | _ => false

/-- The position check: 3-element array whose entries are all numbers
(`isFinite` holds for every number `JSON.parse` can produce). -/
def isPosition : Option JValue → Bool
  | some (JValue.arr es) =>
    es.length == 3 && es.all (fun e => match e with | JValue.num _ => true | _ => false)
  | _ => false

/-- JavaScript `String.prototype.trim`: strip leading and trailing
whitespace (structurally recursive so that concrete imports evaluate). -/
def jsTrim (s : String) : String :=
  ⟨((s.data.dropWhile Char.isWhitespace).reverse.dropWhile Char.isWhitespace).reverse⟩

/-- `v === false` (strict equality with the boolean `false`). -/
def isBoolFalse : Option JValue → Bool
  | some (JValue.bool false) => true
  | _ => false

/-- The `loopMeta` shape checks of `importCoaster`. -/
def validateLoopMeta (lm : JValue) : Bool :=
  is3Array (getProp lm "entryPos") && is3Array (getProp lm "forward")
    && is3Array (getProp lm "up") && is3Array (getProp lm "right")
    && isNumberVal (getProp lm "radius") && isNumberVal (getProp lm "theta")

/-- The per-entry checks of `importCoaster`'s track-point loop. -/
def validateTrackPoint (pt : JValue) : Bool :=
  jsTruthy (some pt) && typeofObject (some pt)
    && isPosition (getProp pt "position")
    && isNumberVal (getProp pt "tilt")
    && isStringVal (getProp pt "id")
    && (match getProp pt "loopMeta" with
        | some lm => if jsTruthy (some lm) then validateLoopMeta lm else true
        | none => true)

/-- One entry of the persisted saved-coaster list (`SavedCoaster`);
`trackPoints`/`loopSegments` are stored as the raw parsed values,
exactly as `importCoaster` does. -/
structure StoredCoaster where
  id : String
  name : String
  timestamp : ℤ
  trackPoints : JValue
  loopSegments : JValue
  isLooped : Bool
  hasChainLift : Bool
  showWoodSupports : Bool

/-- The `validCoaster` record built on `importCoaster`'s success path:
fresh id/timestamp from the clock, `trackPoints` stored as-is,
`loopSegments` from `coaster.loopSegments || []` (the raw value when
truthy, the empty array otherwise), `isLooped`/`showWoodSupports`
through `Boolean(...)`, `hasChainLift` through `!== false`. -/
def validCoasterOf (coaster : JValue) (nm : String) (pts : List JValue) (now : ℤ) :
    StoredCoaster :=
  { id := "coaster-" ++ toString now,
    name := jsTrim nm,
    timestamp := now,
    trackPoints := JValue.arr pts,
    loopSegments := match getProp coaster "loopSegments" with
      | some v => if jsTruthy (some v) then v else JValue.arr []
      | none => JValue.arr [],
    isLooped := jsTruthy (getProp coaster "isLooped"),
    hasChainLift := !(isBoolFalse (getProp coaster "hasChainLift")),
    showWoodSupports := jsTruthy (getProp coaster "showWoodSupports") }

/-- `importCoaster(jsonString)` after parsing: takes the parsed value,
the current saved-coaster list and the clock (`Date.now()`), and returns
the boolean result together with the saved list afterwards.  A string
that fails `JSON.parse` throws, is caught, and yields
`(false, savedCoasters)` before this function is reached. -/
def importCoaster (coaster : JValue) (savedCoasters : List StoredCoaster) (now : ℤ) :
    Bool × List StoredCoaster :=
  if !(jsTruthy (some coaster) && typeofObject (some coaster)) then (false, savedCoasters)
  else
    match getProp coaster "name" with
    | some (JValue.str nm) =>
      if jsTrim nm == "" then (false, savedCoasters)
      else
        match getProp coaster "trackPoints" with
        | some (JValue.arr pts) =>
          if pts.all validateTrackPoint then
            (true, savedCoasters ++ [validCoasterOf coaster nm pts now])
          else (false, savedCoasters)
        | _ => (false, savedCoasters)
    | _ => (false, savedCoasters)

/-- A live track point in the store (`TrackPoint` interface). -/
structure StoreTrackPoint where
  id : String
  position : Vec3
  tilt : ℝ
  hasLoop : Option Bool

/-- The slice of the zustand store state that `removeTrackPoint`
reads or writes (all other fields are untouched by it). -/
structure CoasterStore where
  trackPoints : List StoreTrackPoint
  loopSegments : List LoopSeg
  selectedPointId : Option String

/-- `removeTrackPoint(id)`: filters the point out of `trackPoints` and
clears the selection if it pointed at it; `loopSegments` is not named in
the `set` call, hence left as-is. -/
def removeTrackPoint (st : CoasterStore) (id : String) : CoasterStore :=
  { st with
    trackPoints := st.trackPoints.filter (fun p => p.id != id),
    selectedPointId := if st.selectedPointId == some id then none else st.selectedPointId }

/-! ## Traversal overflow handling (RideCamera.tsx `useFrame` +
`stopRide`) -/

inductive CoasterMode where
  | build
  | ride
  | preview
deriving DecidableEq

/-- The traversal state a tick updates: the store's `mode`, `isRiding`,
`rideProgress` plus the camera's `maxHeightReached` ref. -/
structure RideState where
  mode : CoasterMode
  isRiding : Bool
  rideProgress : ℝ
  maxHeightReached : ℝ

/-- `stopRide()`: `set({ mode: "build", isRiding: false, rideProgress: 0 })`. -/
noncomputable def stopRide (st : RideState) : RideState :=
  { st with mode := CoasterMode.build, isRiding := false, rideProgress := 0 }

/-- JavaScript `x % 1` for the non-negative values reaching the wrap:
the fractional part. -/
noncomputable def jsModOne (x : ℝ) : ℝ := x - ⌊x⌋

/-- The overflow step of `useFrame` once `newProgress` has been
computed: wrap (and, with a chain lift, reset `maxHeightReached` to the
path-start height) on a closed path; `stopRide()` and return on an open
path; otherwise store `newProgress`. -/
noncomputable def advanceRideProgress (isLooped hasChainLift : Bool) (startHeight : ℝ)
    (st : RideState) (newProgress : ℝ) : RideState :=
  if 1 ≤ newProgress then
    if isLooped then
      { st with
        rideProgress := jsModOne newProgress,
        maxHeightReached := if hasChainLift then startHeight else st.maxHeightReached }
    else stopRide st
  else { st with rideProgress := newProgress }

/-! ## Specification-side predicates and concrete fixtures -/

/-- The claims' "orthonormal entry basis (forward, up, right)". -/
def OrthonormalEntryBasis (frame : BarrelRollFrame) : Prop :=
  frame.forward.lengthSq = 1 ∧ frame.up.lengthSq = 1 ∧ frame.right.lengthSq = 1 ∧
    frame.forward.dot frame.up = 0 ∧ frame.forward.dot frame.right = 0 ∧
    frame.up.dot frame.right = 0

/-- A frame whose loop evaluation is well defined: orthonormal basis and
positive radius and pitch (what `computeRollFrame` produces from a unit
spline tangent and the store's positive loop parameters). -/
def WellFormedRollFrame (frame : BarrelRollFrame) : Prop :=
  OrthonormalEntryBasis frame ∧ 0 < frame.radius ∧ 0 < frame.pitch

/-- The loop frame of C4's scenario: entry at the origin with
`forward = (1,0,0)`, `up = (0,1,0)` (hence `right = forward × up =
(0,0,1)`), `radius = 5`, `pitch = 12`. -/
noncomputable def unitFrame : BarrelRollFrame :=
  { entryPos := ⟨0, 0, 0⟩, forward := ⟨1, 0, 0⟩, up := ⟨0, 1, 0⟩, right := ⟨0, 0, 1⟩,
    radius := 5, pitch := 12 }

/-- A one-section table holding a single loop span over all of [0,1). -/
noncomputable def rollSection : TrackSection :=
  { startProgress := 0, endProgress := 1, arcLength := 1,
    kind := SectionKind.roll unitFrame 0 }

/-- A one-section table holding a single spline span over all of [0,1). -/
noncomputable def splineSection01 : TrackSection :=
  { startProgress := 0, endProgress := 1, arcLength := 1,
    kind := SectionKind.spline 0 1 0 }

/-- A degenerate concrete curve (straight line along X). -/
noncomputable def straightSpline : Spline :=
  { getPoint := fun t => ⟨t, 0, 0⟩, getTangent := fun _ => ⟨1, 0, 0⟩ }

/-- Projection used to state facts about an optional sample: the dot
product of its `up` and `tangent` (0 for `none`). -/
noncomputable def upDotTangent : Option HybridSample → ℝ
  | some f => f.up.dot f.tangent
  | none => 0

/-- Modelled from the claim wording of C7: the import's `name` check,
a string non-empty after trimming. -/
def nameAcceptable (c : JValue) : Bool :=
  match getProp c "name" with
  | some (JValue.str s) => !(jsTrim s == "")
  | _ => false

/-- Modelled from the claim wording of C7: the entries of the
`trackPoints` field when it is an array (else no entries). -/
def trackPointsEntries (c : JValue) : List JValue :=
  match getProp c "trackPoints" with
  | some (JValue.arr es) => es
  | _ => []

/-- An import payload whose only track point has a string `tilt`. -/
def badTiltCoaster : JValue :=
  JValue.obj [("name", JValue.str "ok"),
    ("trackPoints", JValue.arr [JValue.obj
      [("position", JValue.arr [JValue.num 0, JValue.num 0, JValue.num 0]),
       ("tilt", JValue.str "oops"),
       ("id", JValue.str "p1")]])]

/-- A valid import payload whose `hasChainLift` is `null` (not a
boolean) and whose `isLooped`/`showWoodSupports` are absent. -/
def chainNullCoaster : JValue :=
  JValue.obj [("name", JValue.str "ride"), ("trackPoints", JValue.arr []),
    ("hasChainLift", JValue.null)]

/-- A valid import payload whose `loopSegments` is an array holding an
empty object: no `radius`, no `pitch`, no `entryPointId`. -/
def rawLoopCoaster : JValue :=
  JValue.obj [("name", JValue.str "loops"), ("trackPoints", JValue.arr []),
    ("loopSegments", JValue.arr [JValue.obj []])]

/-- A valid import payload whose `loopSegments` field is present but
`null`. -/
def nullLoopCoaster : JValue :=
  JValue.obj [("name", JValue.str "loops"), ("trackPoints", JValue.arr []),
    ("loopSegments", JValue.null)]

/-- A store holding a point `p1` that carries a loop, plus a second
point: the state `createLoopAtPoint("p1")` leaves behind. -/
noncomputable def danglingStore : CoasterStore :=
  { trackPoints := [⟨"p1", ⟨0, 0, 0⟩, 0, some true⟩, ⟨"p2", ⟨10, 0, 0⟩, 0, none⟩],
    loopSegments := [⟨"loop-1", "p1", 5, 12⟩],
    selectedPointId := none }

/-- Two raw sections (arc lengths 1 and 3) before progress assignment. -/
noncomputable def sectionsFx : List TrackSection :=
  [{ startProgress := 0, endProgress := 0, arcLength := 1, kind := SectionKind.spline 0 (1 / 2) 0 },
   { startProgress := 0, endProgress := 0, arcLength := 3, kind := SectionKind.spline (1 / 2) 1 1 }]

/-- A mid-ride traversal state at progress 0.9. -/
noncomputable def ridingState : RideState :=
  { mode := CoasterMode.ride, isRiding := true, rideProgress := 0.9, maxHeightReached := 0 }

/-! ## Vector algebra lemmas -/

namespace Vec3

@[simp] theorem add_def (a b : Vec3) : a + b = ⟨a.x + b.x, a.y + b.y, a.z + b.z⟩ := rfl

@[simp] theorem sub_def (a b : Vec3) : a - b = ⟨a.x - b.x, a.y - b.y, a.z - b.z⟩ := rfl

@[simp] theorem smul_def (c : ℝ) (v : Vec3) : c • v = ⟨c * v.x, c * v.y, c * v.z⟩ := rfl

@[simp] theorem zero_def : (0 : Vec3) = ⟨0, 0, 0⟩ := rfl

@[simp] theorem dot_def (a b : Vec3) : a.dot b = a.x * b.x + a.y * b.y + a.z * b.z := rfl

@[simp] theorem lengthSq_def (v : Vec3) :
    v.lengthSq = v.x * v.x + v.y * v.y + v.z * v.z := rfl

theorem lengthSq_nonneg (v : Vec3) : 0 ≤ v.lengthSq := by
  simp only [lengthSq_def]
  nlinarith [sq_nonneg v.x, sq_nonneg v.y, sq_nonneg v.z]

theorem length_eq_zero_iff (v : Vec3) : v.length = 0 ↔ v.lengthSq = 0 := by
  unfold length
  constructor
  · intro h
    have := Real.sqrt_eq_zero (lengthSq_nonneg v) |>.mp h
    exact this
  · intro h; rw [h, Real.sqrt_zero]

theorem length_sq_eq (v : Vec3) : v.length * v.length = v.lengthSq := by
  unfold length
  exact Real.mul_self_sqrt (lengthSq_nonneg v)

/-- Normalizing a vector of unit square length returns it unchanged. -/
theorem normalize_of_unit {v : Vec3} (h : v.lengthSq = 1) : v.normalize = v := by
  have hl : v.length = 1 := by
    unfold length; rw [h, Real.sqrt_one]
  unfold normalize
  rw [hl]
  norm_num

/-- Normalizing a nonzero vector yields a vector of unit square length. -/
theorem lengthSq_normalize {v : Vec3} (h : v.lengthSq ≠ 0) :
    v.normalize.lengthSq = 1 := by
  have hlen : v.length ≠ 0 := fun hc => h ((length_eq_zero_iff v).mp hc)
  have hsq : v.length * v.length = v.x * v.x + v.y * v.y + v.z * v.z := length_sq_eq v
  unfold normalize
  rw [if_neg hlen]
  simp only [smul_def, lengthSq_def]
  field_simp
  linarith [hsq]

/-- Normalizing a positive scalar multiple of a unit vector recovers the
unit vector. -/
theorem normalize_smul_of_pos {c : ℝ} {v : Vec3} (hc : 0 < c) (hv : v.lengthSq = 1) :
    (c • v).normalize = v := by
  have hsq : (c • v).lengthSq = c * c := by
    simp only [smul_def, lengthSq_def] at *
    nlinarith [hv]
  have hlen : (c • v).length = c := by
    unfold length
    rw [hsq]
    rw [show c * c = c ^ 2 by ring]
    exact Real.sqrt_sq hc.le
  unfold normalize
  rw [hlen, if_neg hc.ne.symm]
  ext <;> simp <;> field_simp

end Vec3

namespace Vec3

theorem dot_comm (a b : Vec3) : a.dot b = b.dot a := by
  simp only [dot_def]; ring

theorem dot_normalize_left (v w : Vec3) :
    (v.normalize).dot w = (1 / (if v.length = 0 then 1 else v.length)) * (v.dot w) := by
  simp only [normalize, smul_def, dot_def]; ring

/-- Exact equality gives the claims' 1e-3 tolerance for free. -/
theorem diff_length_le_of_eq {a b : Vec3} (h : a = b) : (a - b).length ≤ 1e-3 := by
  subst h
  have hz : a - a = (⟨0, 0, 0⟩ : Vec3) := by ext <;> simp
  rw [hz]
  unfold length
  simp only [lengthSq_def]
  norm_num

end Vec3

/-! ## Eased-angle endpoint facts -/

theorem easedTheta_zero : easedTheta 0 = 0 := by
  unfold easedTheta; rw [mul_zero, Real.sin_zero]; ring

theorem easedTheta_one : easedTheta 1 = 2 * π := by
  unfold easedTheta; rw [mul_one, Real.sin_two_pi]
  have h2 : (2 : ℝ) * π ≠ 0 := by positivity
  field_simp

theorem dThetaDt_zero : dThetaDt 0 = 0 := by
  unfold dThetaDt; rw [mul_zero, Real.cos_zero]; ring

theorem dThetaDt_one : dThetaDt 1 = 0 := by
  unfold dThetaDt; rw [mul_one, Real.cos_two_pi]; ring

theorem easedTheta_half : easedTheta (1 / 2) = π := by
  unfold easedTheta
  rw [show (2 * π) * ((1 : ℝ) / 2) = π by ring, Real.sin_pi]
  have h2 : (2 : ℝ) * π ≠ 0 := by positivity
  field_simp

/-- With vanishing angular velocity the sampled tangent is exactly the
entry `forward`. -/
theorem roll_tangent_of_dThetaDt_zero (frame : BarrelRollFrame) (hp : 0 < frame.pitch)
    (hF : frame.forward.lengthSq = 1) {t : ℝ} (hd : dThetaDt t = 0) :
    (sampleBarrelRollAnalytically frame t).tangent = frame.forward := by
  unfold sampleBarrelRollAnalytically
  simp only [hd]
  have h : frame.pitch • frame.forward
      + (-frame.radius * Real.sin (easedTheta t) * 0) • frame.right
      + (frame.radius * Real.cos (easedTheta t) * 0) • frame.up
      = frame.pitch • frame.forward := by
    ext <;> simp
  rw [h]
  exact Vec3.normalize_smul_of_pos hp hF

/-- Where the eased angle is a multiple of 2π the sampled up is exactly
the entry `up`. -/
theorem roll_up_of_full_turn (frame : BarrelRollFrame) (hU : frame.up.lengthSq = 1)
    {t : ℝ} (hsin : Real.sin (easedTheta t) = 0) (hcos : Real.cos (easedTheta t) = 1) :
    (sampleBarrelRollAnalytically frame t).up = frame.up := by
  unfold sampleBarrelRollAnalytically
  simp only [hsin, hcos]
  have h : (1 : ℝ) • frame.up + (-(0 : ℝ)) • frame.right = frame.up := by
    ext <;> simp
  rw [h]
  exact Vec3.normalize_of_unit hU

/-- **C1** (confirmed).  For every loop frame with `radius > 0`,
`pitch > 0` and an orthonormal entry basis, the closed-form evaluator at
local parameter 0 and 1 returns a tangent equal to the entry `forward`
and an up equal to the entry `up` — exactly, hence within the 1e-3
tolerance — and `easedTheta` satisfies `θ(0) = 0`, `θ(1) = 2π`,
`dθ/dt = 0` at both endpoints. -/
theorem barrelRoll_endpoint_continuity (frame : BarrelRollFrame)
    (_hr : 0 < frame.radius) (hp : 0 < frame.pitch) (hb : OrthonormalEntryBasis frame) :
    easedTheta 0 = 0 ∧ easedTheta 1 = 2 * π ∧ dThetaDt 0 = 0 ∧ dThetaDt 1 = 0 ∧
    (sampleBarrelRollAnalytically frame 0).tangent = frame.forward ∧
    (sampleBarrelRollAnalytically frame 0).up = frame.up ∧
    (sampleBarrelRollAnalytically frame 1).tangent = frame.forward ∧
    (sampleBarrelRollAnalytically frame 1).up = frame.up ∧
    ((sampleBarrelRollAnalytically frame 0).tangent - frame.forward).length ≤ 1e-3 ∧
    ((sampleBarrelRollAnalytically frame 0).up - frame.up).length ≤ 1e-3 ∧
    ((sampleBarrelRollAnalytically frame 1).tangent - frame.forward).length ≤ 1e-3 ∧
    ((sampleBarrelRollAnalytically frame 1).up - frame.up).length ≤ 1e-3 := by
  obtain ⟨hF, hU, hR, hFU, hFR, hUR⟩ := hb
  have ht0 : (sampleBarrelRollAnalytically frame 0).tangent = frame.forward :=
    roll_tangent_of_dThetaDt_zero frame hp hF dThetaDt_zero
  have ht1 : (sampleBarrelRollAnalytically frame 1).tangent = frame.forward :=
    roll_tangent_of_dThetaDt_zero frame hp hF dThetaDt_one
  have hu0 : (sampleBarrelRollAnalytically frame 0).up = frame.up := by
    refine roll_up_of_full_turn frame hU ?_ ?_
    · rw [easedTheta_zero, Real.sin_zero]
    · rw [easedTheta_zero, Real.cos_zero]
  have hu1 : (sampleBarrelRollAnalytically frame 1).up = frame.up := by
    refine roll_up_of_full_turn frame hU ?_ ?_
    · rw [easedTheta_one, Real.sin_two_pi]
    · rw [easedTheta_one, Real.cos_two_pi]
  exact ⟨easedTheta_zero, easedTheta_one, dThetaDt_zero, dThetaDt_one,
    ht0, hu0, ht1, hu1,
    Vec3.diff_length_le_of_eq ht0, Vec3.diff_length_le_of_eq hu0,
    Vec3.diff_length_le_of_eq ht1, Vec3.diff_length_le_of_eq hu1⟩

/-- Witness for C1: the hypotheses hold at the concrete frame
`unitFrame` and the theorem applies there. -/
theorem barrelRoll_endpoint_continuity_witness :
    (0 < unitFrame.radius ∧ 0 < unitFrame.pitch ∧ OrthonormalEntryBasis unitFrame) ∧
    (sampleBarrelRollAnalytically unitFrame 0).tangent = unitFrame.forward ∧
    (sampleBarrelRollAnalytically unitFrame 1).up = unitFrame.up := by
  have h1 : 0 < unitFrame.radius := by norm_num [unitFrame]
  have h2 : 0 < unitFrame.pitch := by norm_num [unitFrame]
  have h3 : OrthonormalEntryBasis unitFrame := by
    refine ⟨?_, ?_, ?_, ?_, ?_, ?_⟩ <;>
      norm_num [unitFrame, Vec3.lengthSq, Vec3.dot]
  have c := barrelRoll_endpoint_continuity unitFrame h1 h2 h3
  exact ⟨⟨h1, h2, h3⟩, c.2.2.2.2.1, c.2.2.2.2.2.2.2.1⟩

/-! ## C4: the loop's midpoint displacement -/

/-- At local parameter 1/2 the eased angle is π, so the sampled point
sits `pitch/2` along `forward` and `2·radius` opposite `right` from the
entry position — a lateral, not vertical, displacement. -/
theorem barrelRoll_half_point (frame : BarrelRollFrame) :
    (sampleBarrelRollAnalytically frame (1 / 2)).point
      = frame.entryPos + (frame.pitch / 2) • frame.forward
        + (-(2 * frame.radius)) • frame.right := by
  unfold sampleBarrelRollAnalytically
  simp only [easedTheta_half, Real.sin_pi, Real.cos_pi]
  ext <;> simp <;> ring

/-- **C4** (corrected).  For every loop frame, sampling at local s = 0.5
yields the entry position displaced by `pitch/2` along `forward` and by
`2·radius` opposite `right`; the displacement along `up` is zero (the
loop is a barrel roll about the forward axis, not a vertical loop). -/
theorem barrelRoll_midpoint_displacement (frame : BarrelRollFrame) :
    (sampleBarrelRollAnalytically frame (1 / 2)).point
      = frame.entryPos + (frame.pitch / 2) • frame.forward
        + (-(2 * frame.radius)) • frame.right :=
  barrelRoll_half_point frame

/-- **C4 counterexample.**  In the claim's scenario (radius 5, pitch 12,
forward (1,0,0), up (0,1,0), entry at the origin) the point at s = 0.5
is (6, 0, −10): its height equals the entry height, so it is not
displaced upward by approximately 2·radius = 10. -/
theorem barrelRoll_midpoint_not_upward :
    (sampleBarrelRollAnalytically unitFrame (1 / 2)).point = ⟨6, 0, -10⟩ ∧
    ¬ (|(sampleBarrelRollAnalytically unitFrame (1 / 2)).point.y
        - unitFrame.entryPos.y - 2 * unitFrame.radius| ≤ 1) := by
  have h := barrelRoll_half_point unitFrame
  constructor
  · rw [h]
    unfold unitFrame
    ext <;> simp <;> norm_num
  · rw [h]
    unfold unitFrame
    simp
    norm_num

/-! ## C2: the progress assignment partitions [0, 1] -/

theorem assignProgress_glue (total : ℝ) (ss : List TrackSection) : ∀ (running : ℝ),
    ∀ p ∈ (assignProgress total running ss).zip (assignProgress total running ss).tail,
      p.1.endProgress = p.2.startProgress := by
  induction ss with
  | nil => intro running p hp; simp [assignProgress] at hp
  | cons s rest ih =>
    intro running p hp
    cases rest with
    | nil => simp [assignProgress] at hp
    | cons s2 rest2 =>
      rw [assignProgress, assignProgress, List.tail_cons, List.zip_cons_cons] at hp
      rcases List.mem_cons.mp hp with h1 | h2
      · subst h1; rfl
      · have := ih (running + s.arcLength)
        rw [assignProgress] at this
        exact this p h2

theorem sumArcLengths_cons (s : TrackSection) (l : List TrackSection) :
    sumArcLengths (s :: l) = s.arcLength + sumArcLengths l := by
  simp [sumArcLengths]

theorem assignProgress_getLast (total : ℝ) (ss : List TrackSection) : ∀ (running : ℝ),
    ss ≠ [] →
    ∃ sl, (assignProgress total running ss).getLast? = some sl ∧
      sl.endProgress = (running + sumArcLengths ss) / total := by
  induction ss with
  | nil => intro running h; exact absurd rfl h
  | cons s rest ih =>
    intro running _
    cases rest with
    | nil =>
      refine ⟨_, rfl, ?_⟩
      simp [assignProgress, sumArcLengths]
    | cons s2 rest2 =>
      obtain ⟨sl, hlast, hend⟩ := ih (running + s.arcLength) (by simp)
      refine ⟨sl, ?_, ?_⟩
      · rw [assignProgress, assignProgress, List.getLast?_cons_cons]
        rw [assignProgress] at hlast
        exact hlast
      · rw [hend]
        simp only [sumArcLengths_cons]
        ring

/-- **C2** (confirmed).  For any section list with positive total arc
length, the assigned progress ranges partition [0,1]: the first
section's `startProgress` is 0, each `endProgress` equals the next
`startProgress` exactly, and the last `endProgress` is exactly 1. -/
theorem section_progress_partition (ss : List TrackSection) (total : ℝ)
    (htot : total = sumArcLengths ss) (hpos : 0 < total) (hne : ss ≠ []) :
    (∀ s0, (assignProgress total 0 ss).head? = some s0 → s0.startProgress = 0) ∧
    (∀ p ∈ (assignProgress total 0 ss).zip (assignProgress total 0 ss).tail,
      p.1.endProgress = p.2.startProgress) ∧
    (∀ sl, (assignProgress total 0 ss).getLast? = some sl → sl.endProgress = 1) := by
  refine ⟨?_, assignProgress_glue total ss 0, ?_⟩
  · intro s0 h0
    cases ss with
    | nil => exact absurd rfl hne
    | cons s rest =>
      rw [assignProgress] at h0
      simp only [List.head?_cons, Option.some_inj] at h0
      rw [← h0]
      simp [zero_div]
  · intro sl hl
    obtain ⟨sl2, hl2, hend⟩ := assignProgress_getLast total ss 0 hne
    rw [hl, Option.some_inj] at hl2
    rw [hl2, hend, zero_add, ← htot]
    exact div_self (ne_of_gt hpos)

/-- Witness for C2 at the two-section fixture with arc lengths 1 and 3
(total 4). -/
theorem section_progress_partition_witness :
    ((4 : ℝ) = sumArcLengths sectionsFx ∧ (0 : ℝ) < 4 ∧ sectionsFx ≠ []) ∧
    ((∀ s0, (assignProgress 4 0 sectionsFx).head? = some s0 → s0.startProgress = 0) ∧
     (∀ p ∈ (assignProgress 4 0 sectionsFx).zip (assignProgress 4 0 sectionsFx).tail,
       p.1.endProgress = p.2.startProgress) ∧
     (∀ sl, (assignProgress 4 0 sectionsFx).getLast? = some sl → sl.endProgress = 1)) := by
  have h1 : (4 : ℝ) = sumArcLengths sectionsFx := by
    simp [sectionsFx, sumArcLengths]
    norm_num
  have h2 : (0 : ℝ) < 4 := by norm_num
  have h3 : sectionsFx ≠ [] := by simp [sectionsFx]
  exact ⟨⟨h1, h2, h3⟩, section_progress_partition sectionsFx 4 h1 h2 h3⟩

/-! ## C5: the overflow step of a traversal tick -/

/-- **C5** (corrected).  When a tick advances progress to a value ≥ 1:
on a closed path progress wraps via modulo and, if the chain lift is
enabled, the climb-height tracker is reset to the path's start height,
with traversal staying active; on an open path `stopRide()` runs, so
traversal stops and `rideProgress` is reset to 0 (not left at the last
valid sample). -/
theorem progress_overflow_step (isLooped hasChainLift : Bool) (startHeight : ℝ)
    (st : RideState) (np : ℝ) (h1 : 1 ≤ np) :
    (isLooped = true →
      (advanceRideProgress isLooped hasChainLift startHeight st np).rideProgress = jsModOne np ∧
      (hasChainLift = true →
        (advanceRideProgress isLooped hasChainLift startHeight st np).maxHeightReached
          = startHeight) ∧
      (advanceRideProgress isLooped hasChainLift startHeight st np).isRiding = st.isRiding) ∧
    (isLooped = false →
      advanceRideProgress isLooped hasChainLift startHeight st np = stopRide st ∧
      (advanceRideProgress isLooped hasChainLift startHeight st np).isRiding = false ∧
      (advanceRideProgress isLooped hasChainLift startHeight st np).rideProgress = 0) := by
  constructor
  · rintro rfl
    cases hasChainLift <;>
      simp [advanceRideProgress, if_pos h1]
  · rintro rfl
    simp [advanceRideProgress, if_pos h1, stopRide]

/-- Witness for C5 on a closed chain-lift path with an overflowing
tick. -/
theorem progress_overflow_step_witness :
    (1 : ℝ) ≤ 1.25 ∧
    (advanceRideProgress true true 2 ridingState 1.25).rideProgress = jsModOne 1.25 ∧
    (advanceRideProgress true true 2 ridingState 1.25).maxHeightReached = 2 := by
  have h : (1 : ℝ) ≤ 1.25 := by norm_num
  have c := progress_overflow_step true true 2 ridingState 1.25 h
  exact ⟨h, (c.1 rfl).1, ((c.1 rfl).2.1 rfl)⟩

/-- **C5 counterexample.**  On an open path with prior progress 0.9, an
overflowing tick leaves `rideProgress` at 0 — `stopRide` resets it — not
at the last valid sample 0.9. -/
theorem progress_overflow_open_resets_to_zero :
    (advanceRideProgress false true 0 ridingState 1.05).rideProgress = 0 ∧
    ridingState.rideProgress = 0.9 ∧ (0 : ℝ) ≠ 0.9 ∧
    (advanceRideProgress false true 0 ridingState 1.05).isRiding = false := by
  have h : (1 : ℝ) ≤ 1.05 := by norm_num
  refine ⟨?_, rfl, by norm_num, ?_⟩
  · unfold advanceRideProgress
    rw [if_pos h]
    simp [stopRide]
  · unfold advanceRideProgress
    rw [if_pos h]
    simp [stopRide]

/-! ## C6: removeTrackPoint and loop segments -/

/-- **C6** (corrected).  `removeTrackPoint(id)` removes the point from
`trackPoints` — no remaining point carries the removed id — but leaves
`loopSegments` untouched, so a LoopSegment referencing the removed
point survives as a dangling descriptor. -/
theorem removeTrackPoint_keeps_loopSegments (st : CoasterStore) (id : String) :
    (removeTrackPoint st id).loopSegments = st.loopSegments ∧
    (∀ p ∈ (removeTrackPoint st id).trackPoints, p.id ≠ id) ∧
    (∀ p ∈ (removeTrackPoint st id).trackPoints, p ∈ st.trackPoints) := by
  refine ⟨rfl, ?_, ?_⟩
  · intro p hp
    unfold removeTrackPoint at hp
    simp only [List.mem_filter, bne_iff_ne, ne_eq] at hp
    exact hp.2
  · intro p hp
    exact List.mem_of_mem_filter hp

/-- **C6 counterexample.**  In a store where point "p1" carries loop
"loop-1", `removeTrackPoint("p1")` leaves a LoopSegment whose
`entryPointId` is "p1" in the store while no remaining TrackPoint has
that id. -/
theorem removeTrackPoint_dangling_loop :
    (∃ seg ∈ (removeTrackPoint danglingStore "p1").loopSegments, seg.entryPointId = "p1") ∧
    (∀ p ∈ (removeTrackPoint danglingStore "p1").trackPoints, p.id ≠ "p1") := by
  constructor
  · exact ⟨⟨"loop-1", "p1", 5, 12⟩, by simp [removeTrackPoint, danglingStore], rfl⟩
  · intro p hp
    simp only [removeTrackPoint, danglingStore, List.mem_filter, bne_iff_ne, ne_eq] at hp
    exact hp.2

/-! ## C7: importCoaster rejects malformed payloads wholesale -/

theorem validateTrackPoint_tilt_position {pt : JValue} (h : validateTrackPoint pt = true) :
    isNumberVal (getProp pt "tilt") = true ∧ isPosition (getProp pt "position") = true := by
  unfold validateTrackPoint at h
  simp only [Bool.and_eq_true] at h
  exact ⟨h.1.1.2, h.1.1.1.2⟩

/-- **C7** (confirmed).  `importCoaster` returns `false` and leaves the
stored saved-coaster list unchanged whenever the payload's `name` is not
a non-empty string, its `trackPoints` is not an array, or some
track-point entry has a non-numeric `tilt` or an invalid `position`:
every validation check precedes any state mutation. -/
theorem importCoaster_rejects_invalid (c : JValue) (saved : List StoredCoaster) (now : ℤ)
    (hbad : nameAcceptable c = false ∨ isArrayVal (getProp c "trackPoints") = false ∨
      (∃ pt ∈ trackPointsEntries c, isNumberVal (getProp pt "tilt") = false) ∨
      (∃ pt ∈ trackPointsEntries c, isPosition (getProp pt "position") = false)) :
    importCoaster c saved now = (false, saved) := by
  unfold importCoaster
  split
  · rfl
  · split
    · next nm heqName =>
      split
      · rfl
      · next htrim =>
        split
        · next pts heqPts =>
          split
          · next hall =>
            exfalso
            rcases hbad with h | h | h | h
            · rw [nameAcceptable, heqName] at h
              simp only [Bool.not_eq_false'] at h
              exact htrim h
            · rw [heqPts] at h
              simp [isArrayVal] at h
            · obtain ⟨pt, hmem, hbadTilt⟩ := h
              rw [trackPointsEntries, heqPts] at hmem
              have hv := List.all_eq_true.mp hall pt hmem
              rw [(validateTrackPoint_tilt_position hv).1] at hbadTilt
              simp at hbadTilt
            · obtain ⟨pt, hmem, hbadPos⟩ := h
              rw [trackPointsEntries, heqPts] at hmem
              have hv := List.all_eq_true.mp hall pt hmem
              rw [(validateTrackPoint_tilt_position hv).2] at hbadPos
              simp at hbadPos
          · rfl
        · rfl
    · rfl

/-- Witness for C7: a payload whose only track point has a string
`tilt` is rejected with the saved list untouched. -/
theorem importCoaster_rejects_invalid_witness :
    (∃ pt ∈ trackPointsEntries badTiltCoaster, isNumberVal (getProp pt "tilt") = false) ∧
    importCoaster badTiltCoaster [] 0 = (false, []) := by
  have hbad : ∃ pt ∈ trackPointsEntries badTiltCoaster,
      isNumberVal (getProp pt "tilt") = false := by decide
  exact ⟨hbad,
    importCoaster_rejects_invalid badTiltCoaster [] 0 (Or.inr (Or.inr (Or.inl hbad)))⟩

/-! ## C9 and C10: what a successful import stores -/

/-- `importCoaster` either rejects (returning the saved list unchanged)
or accepts, appending exactly the `validCoaster` record. -/
theorem importCoaster_cases (c : JValue) (saved : List StoredCoaster) (now : ℤ) :
    importCoaster c saved now = (false, saved) ∨
    ∃ nm pts, getProp c "name" = some (JValue.str nm) ∧
      getProp c "trackPoints" = some (JValue.arr pts) ∧
      importCoaster c saved now = (true, saved ++ [validCoasterOf c nm pts now]) := by
  unfold importCoaster
  split
  · exact Or.inl rfl
  · split
    · next nm heqName =>
      split
      · exact Or.inl rfl
      · split
        · next pts heqPts =>
          split
          · exact Or.inr ⟨nm, pts, heqName, heqPts, rfl⟩
          · exact Or.inl rfl
        · exact Or.inl rfl
    · exact Or.inl rfl

/-- **C9** (confirmed).  Every successful import appends one stored
entry whose `hasChainLift` is true unless the payload's field is
exactly the boolean `false` (absent, null or non-boolean values default
to true), and whose `isLooped`/`showWoodSupports` are the `Boolean`
coercion of their fields — false when absent. -/
theorem importCoaster_flag_defaults (c : JValue) (saved : List StoredCoaster) (now : ℤ)
    (h : (importCoaster c saved now).1 = true) :
    ∃ stored, (importCoaster c saved now).2 = saved ++ [stored] ∧
      (stored.hasChainLift = false ↔ isBoolFalse (getProp c "hasChainLift") = true) ∧
      (getProp c "hasChainLift" = none → stored.hasChainLift = true) ∧
      stored.isLooped = jsTruthy (getProp c "isLooped") ∧
      (getProp c "isLooped" = none → stored.isLooped = false) ∧
      stored.showWoodSupports = jsTruthy (getProp c "showWoodSupports") ∧
      (getProp c "showWoodSupports" = none → stored.showWoodSupports = false) := by
  rcases importCoaster_cases c saved now with hfail | ⟨nm, pts, _, _, hok⟩
  · rw [hfail] at h
    simp at h
  · refine ⟨validCoasterOf c nm pts now, ?_, ?_, ?_, ?_, ?_, ?_, ?_⟩
    · rw [hok]
    · simp [validCoasterOf]
    · intro hnone
      simp [validCoasterOf, hnone, isBoolFalse]
    · rfl
    · intro hnone
      simp [validCoasterOf, hnone, jsTruthy]
    · rfl
    · intro hnone
      simp [validCoasterOf, hnone, jsTruthy]

/-- Witness for C9: `chainNullCoaster` imports successfully and its
stored flags default as described. -/
theorem importCoaster_flag_defaults_witness :
    (importCoaster chainNullCoaster [] 0).1 = true ∧
    (∃ stored, (importCoaster chainNullCoaster [] 0).2 = [] ++ [stored] ∧
      (stored.hasChainLift = false ↔ isBoolFalse (getProp chainNullCoaster "hasChainLift") = true) ∧
      (getProp chainNullCoaster "hasChainLift" = none → stored.hasChainLift = true) ∧
      stored.isLooped = jsTruthy (getProp chainNullCoaster "isLooped") ∧
      (getProp chainNullCoaster "isLooped" = none → stored.isLooped = false) ∧
      stored.showWoodSupports = jsTruthy (getProp chainNullCoaster "showWoodSupports") ∧
      (getProp chainNullCoaster "showWoodSupports" = none → stored.showWoodSupports = false)) := by
  have h : (importCoaster chainNullCoaster [] 0).1 = true := by decide
  exact ⟨h, importCoaster_flag_defaults chainNullCoaster [] 0 h⟩

/-- **C10** (corrected).  `importCoaster` accepts a payload whose
`loopSegments` entries lack every loop field and stores the array
unvalidated, as-is; the empty array is substituted when the field is
absent — and also when it is present but falsy, e.g. `null`. -/
theorem importCoaster_loops_unvalidated :
    (importCoaster rawLoopCoaster [] 0).1 = true ∧
    (importCoaster rawLoopCoaster [] 0).2.map (fun s => s.loopSegments)
      = [JValue.arr [JValue.obj []]] ∧
    (importCoaster nullLoopCoaster [] 0).1 = true ∧
    (importCoaster nullLoopCoaster [] 0).2.map (fun s => s.loopSegments) = [JValue.arr []] :=
  ⟨rfl, rfl, rfl, rfl⟩

/-- **C10 counterexample.**  `nullLoopCoaster` carries a present (but
`null`) `loopSegments` field, yet the stored entry holds the empty
array: the empty-array substitution is not restricted to an entirely
absent field. -/
theorem importCoaster_null_loops_substituted :
    getProp nullLoopCoaster "loopSegments" = some JValue.null ∧
    (importCoaster nullLoopCoaster [] 0).1 = true ∧
    (importCoaster nullLoopCoaster [] 0).2.map (fun s => s.loopSegments) = [JValue.arr []] :=
  ⟨rfl, rfl, rfl⟩

/-! ## C8: clamp, scan, fallback, totality of the sampler -/

theorem clampProgress_of_nonpos {p : ℝ} (h : p ≤ 0) : clampProgress p = clampProgress 0 := by
  unfold clampProgress
  rw [min_eq_left (le_trans h (by norm_num)), min_eq_left (by norm_num : (0 : ℝ) ≤ 0.9999)]
  rw [max_eq_left h, max_self]

theorem clampProgress_of_ge {p : ℝ} (h : 0.9999 ≤ p) :
    clampProgress p = clampProgress 0.9999 := by
  unfold clampProgress
  rw [min_eq_right h, min_self]

/-- A chosen section always comes from the table. -/
theorem chooseSection_mem {sections : List TrackSection} {p : ℝ} {s : TrackSection}
    (h : chooseSection sections p = some s) : s ∈ sections := by
  unfold chooseSection at h
  cases hf : sections.find? (sectionContains p) with
  | some s2 =>
    rw [hf, Option.some_inj] at h
    rw [← h]
    exact List.mem_of_find?_eq_some hf
  | none =>
    rw [hf] at h
    cases hne : sections with
    | nil => rw [hne] at h; simp at h
    | cons a l =>
      rw [hne] at h
      rw [List.getLast?_eq_getLast_of_ne_nil (List.cons_ne_nil a l), Option.some_inj] at h
      subst h
      exact List.getLast_mem _

theorem chooseSection_of_ne_nil {sections : List TrackSection} (h : sections ≠ []) (p : ℝ) :
    ∃ s, chooseSection sections p = some s := by
  unfold chooseSection
  cases hf : sections.find? (sectionContains p) with
  | some s => exact ⟨s, rfl⟩
  | none =>
    rw [List.getLast?_eq_getLast_of_ne_nil h]
    exact ⟨_, rfl⟩

/-- **C8** (confirmed).  On a non-empty section table the sampler clamps
progress into [0, 0.9999] (so any `p ≤ 0` samples like 0 and any
`p ≥ 0.9999` samples like 0.9999), linear-scans for the first section
whose half-open range contains the clamped progress, falls back to the
last section when none matches, and never returns `none`. -/
theorem sampleHybridTrack_clamp_scan (sections : List TrackSection) (spline : Spline)
    (loops : List LoopSeg) (pts : List TrackPointRef) (looped : Bool) (p : ℝ)
    (hne : sections ≠ []) :
    (p ≤ 0 → sampleHybridTrack p sections spline loops pts looped
      = sampleHybridTrack 0 sections spline loops pts looped) ∧
    (0.9999 ≤ p → sampleHybridTrack p sections spline loops pts looped
      = sampleHybridTrack 0.9999 sections spline loops pts looped) ∧
    (∃ s, chooseSection sections (clampProgress p) = some s ∧ s ∈ sections) ∧
    (sections.find? (sectionContains (clampProgress p)) = none →
      chooseSection sections (clampProgress p) = sections.getLast?) ∧
    (sampleHybridTrack p sections spline loops pts looped).isSome = true := by
  refine ⟨?_, ?_, ?_, ?_, ?_⟩
  · intro h
    unfold sampleHybridTrack
    rw [clampProgress_of_nonpos h]
  · intro h
    unfold sampleHybridTrack
    rw [clampProgress_of_ge h]
  · obtain ⟨s, hs⟩ := chooseSection_of_ne_nil hne (clampProgress p)
    exact ⟨s, hs, chooseSection_mem hs⟩
  · intro h
    unfold chooseSection
    rw [h]
  · obtain ⟨s, hs⟩ := chooseSection_of_ne_nil hne (clampProgress p)
    simp only [sampleHybridTrack]
    rw [if_neg (by simp [hne] : ¬sections.isEmpty = true), hs]
    cases hk : s.kind <;> simp [hk]

/-- Witness for C8 on a one-spline-section table at progress 2. -/
theorem sampleHybridTrack_clamp_scan_witness :
    ([splineSection01] ≠ ([] : List TrackSection)) ∧ ((0.9999 : ℝ) ≤ 2) ∧
    (sampleHybridTrack 2 [splineSection01] straightSpline [] [] false
      = sampleHybridTrack 0.9999 [splineSection01] straightSpline [] [] false) ∧
    (sampleHybridTrack 2 [splineSection01] straightSpline [] [] false).isSome = true := by
  have hne : [splineSection01] ≠ ([] : List TrackSection) := by simp
  have c := sampleHybridTrack_clamp_scan [splineSection01] straightSpline [] [] false 2 hne
  exact ⟨hne, by norm_num, c.2.1 (by norm_num), c.2.2.2.2⟩

/-! ## C3: unit frames and perpendicularity -/

/-- The spline branch's recomputed `up` is unit and perpendicular to a
unit tangent (both the world-up projection and the world-X fallback). -/
theorem splineUp_unit_perp {t : Vec3} (ht : t.lengthSq = 1) :
    (splineUp t).lengthSq = 1 ∧ (splineUp t).dot t = 0 := by
  have htc : t.x * t.x + t.y * t.y + t.z * t.z = 1 := ht
  simp only [splineUp]
  split
  · next h =>
    have hpos : (0 : ℝ) < ((⟨0, 1, 0⟩ : Vec3) - ((⟨0, 1, 0⟩ : Vec3).dot t) • t).lengthSq :=
      lt_trans (by norm_num) h
    refine ⟨Vec3.lengthSq_normalize hpos.ne.symm, ?_⟩
    rw [Vec3.dot_normalize_left]
    have hz : ((⟨0, 1, 0⟩ : Vec3) - ((⟨0, 1, 0⟩ : Vec3).dot t) • t).dot t = 0 := by
      simp only [Vec3.sub_def, Vec3.smul_def, Vec3.dot_def]
      linear_combination (-t.y) * htc
    rw [hz, mul_zero]
  · next h =>
    have hval : ((⟨0, 1, 0⟩ : Vec3) - ((⟨0, 1, 0⟩ : Vec3).dot t) • t).lengthSq
        = 1 - t.y * t.y := by
      simp only [Vec3.sub_def, Vec3.smul_def, Vec3.lengthSq_def, Vec3.dot_def]
      linear_combination (t.y * t.y) * htc
    have hty : 1 - t.y * t.y ≤ 0.001 := by
      rw [← hval]
      exact not_lt.mp h
    have hval2 : ((⟨1, 0, 0⟩ : Vec3) - ((⟨1, 0, 0⟩ : Vec3).dot t) • t).lengthSq
        = 1 - t.x * t.x := by
      simp only [Vec3.sub_def, Vec3.smul_def, Vec3.lengthSq_def, Vec3.dot_def]
      linear_combination (t.x * t.x) * htc
    have hxpos : (0 : ℝ) < 1 - t.x * t.x := by
      linarith [htc, hty, mul_self_nonneg t.z]
    refine ⟨Vec3.lengthSq_normalize (by rw [hval2]; exact hxpos.ne.symm), ?_⟩
    rw [Vec3.dot_normalize_left]
    have hz : ((⟨1, 0, 0⟩ : Vec3) - ((⟨1, 0, 0⟩ : Vec3).dot t) • t).dot t = 0 := by
      simp only [Vec3.sub_def, Vec3.smul_def, Vec3.dot_def]
      linear_combination (-t.x) * htc
    rw [hz, mul_zero]

/-- At every local parameter the roll's `up` is unit and perpendicular
to the loop's entry `forward` (not the instantaneous tangent), and its
tangent is unit, given an orthonormal entry basis and positive pitch. -/
theorem barrelRoll_unit_up_perp_forward (frame : BarrelRollFrame)
    (hb : OrthonormalEntryBasis frame) (hp : 0 < frame.pitch) (t : ℝ) :
    (sampleBarrelRollAnalytically frame t).tangent.lengthSq = 1 ∧
    (sampleBarrelRollAnalytically frame t).up.lengthSq = 1 ∧
    (sampleBarrelRollAnalytically frame t).up.dot frame.forward = 0 := by
  obtain ⟨hF, hU, hR, hFU, hFR, hUR⟩ := hb
  simp only [Vec3.lengthSq_def] at hF hU hR
  simp only [Vec3.dot_def] at hFU hFR hUR
  have hs := Real.sin_sq_add_cos_sq (easedTheta t)
  have hu1 : ((Real.cos (easedTheta t)) • frame.up
      + (-(Real.sin (easedTheta t))) • frame.right).lengthSq = 1 := by
    simp only [Vec3.smul_def, Vec3.add_def, Vec3.lengthSq_def]
    linear_combination (Real.cos (easedTheta t)) ^ 2 * hU
      + (Real.sin (easedTheta t)) ^ 2 * hR
      - 2 * (Real.sin (easedTheta t)) * (Real.cos (easedTheta t)) * hUR + hs
  have hv1 : (frame.pitch • frame.forward
      + (-frame.radius * Real.sin (easedTheta t) * dThetaDt t) • frame.right
      + (frame.radius * Real.cos (easedTheta t) * dThetaDt t) • frame.up).lengthSq
      = frame.pitch ^ 2 + (frame.radius * dThetaDt t) ^ 2 := by
    simp only [Vec3.smul_def, Vec3.add_def, Vec3.lengthSq_def]
    linear_combination frame.pitch ^ 2 * hF
      + (frame.radius * Real.sin (easedTheta t) * dThetaDt t) ^ 2 * hR
      + (frame.radius * Real.cos (easedTheta t) * dThetaDt t) ^ 2 * hU
      + (2 * frame.pitch * (-frame.radius * Real.sin (easedTheta t) * dThetaDt t)) * hFR
      + (2 * frame.pitch * (frame.radius * Real.cos (easedTheta t) * dThetaDt t)) * hFU
      + (2 * (-frame.radius * Real.sin (easedTheta t) * dThetaDt t)
          * (frame.radius * Real.cos (easedTheta t) * dThetaDt t)) * hUR
      + (frame.radius * dThetaDt t) ^ 2 * hs
  have hvne : (frame.pitch • frame.forward
      + (-frame.radius * Real.sin (easedTheta t) * dThetaDt t) • frame.right
      + (frame.radius * Real.cos (easedTheta t) * dThetaDt t) • frame.up).lengthSq ≠ 0 := by
    rw [hv1]
    nlinarith [hp, sq_nonneg (frame.radius * dThetaDt t)]
  have hdz : ((Real.cos (easedTheta t)) • frame.up
      + (-(Real.sin (easedTheta t))) • frame.right).dot frame.forward = 0 := by
    simp only [Vec3.smul_def, Vec3.add_def, Vec3.dot_def]
    linear_combination (Real.cos (easedTheta t)) * hFU - (Real.sin (easedTheta t)) * hFR
  simp only [sampleBarrelRollAnalytically]
  refine ⟨Vec3.lengthSq_normalize hvne, ?_, ?_⟩
  · rw [Vec3.normalize_of_unit hu1]
    exact hu1
  · rw [Vec3.normalize_of_unit hu1]
    exact hdz

/-- **C3** (corrected).  For every frame the path sampler returns (under
the builder guarantees: nonvanishing spline tangents and well-formed
roll frames), `tangent` and `up` are unit; `up` is perpendicular to
`tangent` for spline-section frames, while a loop-section frame's `up`
is the rolled entry up — perpendicular to the loop's entry `forward`,
not to the instantaneous tangent. -/
theorem sampleHybridTrack_frame_props
    (progress : ℝ) (sections : List TrackSection) (spline : Spline)
    (loops : List LoopSeg) (pts : List TrackPointRef) (looped : Bool) (f : HybridSample)
    (hsp : ∀ u, (spline.getTangent u).lengthSq ≠ 0)
    (hfr : ∀ s ∈ sections, ∀ fr pi, s.kind = SectionKind.roll fr pi →
      OrthonormalEntryBasis fr ∧ 0 < fr.pitch)
    (heq : sampleHybridTrack progress sections spline loops pts looped = some f) :
    f.tangent.lengthSq = 1 ∧ f.up.lengthSq = 1 ∧
    (f.inRoll = false → f.up.dot f.tangent = 0) ∧
    (f.inRoll = true → ∃ s ∈ sections, ∃ fr pi, s.kind = SectionKind.roll fr pi ∧
      f.up.dot fr.forward = 0) := by
  simp only [sampleHybridTrack] at heq
  split at heq
  · exact absurd heq (by simp)
  · cases hcs : chooseSection sections (clampProgress progress) with
    | none => rw [hcs] at heq; simp at heq
    | some sec =>
      rw [hcs] at heq
      simp only [] at heq
      have hmem := chooseSection_mem hcs
      cases hk : sec.kind with
      | roll fr pi =>
        rw [hk] at heq
        rw [Option.some_inj] at heq
        obtain ⟨hb, hp⟩ := hfr sec hmem fr pi hk
        have props := barrelRoll_unit_up_perp_forward fr hb hp
          ((clampProgress progress - sec.startProgress) / (sec.endProgress - sec.startProgress))
        subst heq
        refine ⟨props.1, props.2.1, ?_, ?_⟩
        · intro h
          simp at h
        · intro _
          exact ⟨sec, hmem, fr, pi, hk, props.2.2⟩
      | spline a b pi =>
        rw [hk] at heq
        rw [Option.some_inj] at heq
        subst heq
        have ht : ((spline.getTangent (a + (clampProgress progress - sec.startProgress)
            / (sec.endProgress - sec.startProgress) * (b - a))).normalize).lengthSq = 1 :=
          Vec3.lengthSq_normalize (hsp _)
        have hup := splineUp_unit_perp ht
        refine ⟨ht, hup.1, ?_, ?_⟩
        · intro _
          exact hup.2
        · intro h
          simp at h

theorem unitFrame_orthonormal : OrthonormalEntryBasis unitFrame := by
  refine ⟨?_, ?_, ?_, ?_, ?_, ?_⟩ <;>
    norm_num [unitFrame, Vec3.lengthSq, Vec3.dot]

/-- Wherever the eased angular velocity is positive, the roll's `up` has
a positive dot product with its tangent: the returned up is tilted
toward the direction of travel, not perpendicular to it. -/
theorem barrelRoll_up_dot_tangent_pos (frame : BarrelRollFrame)
    (hb : OrthonormalEntryBasis frame) (hr : 0 < frame.radius) (hp : 0 < frame.pitch)
    {t : ℝ} (hd : 0 < dThetaDt t) :
    0 < (sampleBarrelRollAnalytically frame t).up.dot
      (sampleBarrelRollAnalytically frame t).tangent := by
  obtain ⟨hF, hU, hR, hFU, hFR, hUR⟩ := hb
  simp only [Vec3.lengthSq_def] at hF hU hR
  simp only [Vec3.dot_def] at hFU hFR hUR
  have hs := Real.sin_sq_add_cos_sq (easedTheta t)
  have hu1 : ((Real.cos (easedTheta t)) • frame.up
      + (-(Real.sin (easedTheta t))) • frame.right).lengthSq = 1 := by
    simp only [Vec3.smul_def, Vec3.add_def, Vec3.lengthSq_def]
    linear_combination (Real.cos (easedTheta t)) ^ 2 * hU
      + (Real.sin (easedTheta t)) ^ 2 * hR
      - 2 * (Real.sin (easedTheta t)) * (Real.cos (easedTheta t)) * hUR + hs
  have hv1 : (frame.pitch • frame.forward
      + (-frame.radius * Real.sin (easedTheta t) * dThetaDt t) • frame.right
      + (frame.radius * Real.cos (easedTheta t) * dThetaDt t) • frame.up).lengthSq
      = frame.pitch ^ 2 + (frame.radius * dThetaDt t) ^ 2 := by
    simp only [Vec3.smul_def, Vec3.add_def, Vec3.lengthSq_def]
    linear_combination frame.pitch ^ 2 * hF
      + (frame.radius * Real.sin (easedTheta t) * dThetaDt t) ^ 2 * hR
      + (frame.radius * Real.cos (easedTheta t) * dThetaDt t) ^ 2 * hU
      + (2 * frame.pitch * (-frame.radius * Real.sin (easedTheta t) * dThetaDt t)) * hFR
      + (2 * frame.pitch * (frame.radius * Real.cos (easedTheta t) * dThetaDt t)) * hFU
      + (2 * (-frame.radius * Real.sin (easedTheta t) * dThetaDt t)
          * (frame.radius * Real.cos (easedTheta t) * dThetaDt t)) * hUR
      + (frame.radius * dThetaDt t) ^ 2 * hs
  have hdotuv : ((Real.cos (easedTheta t)) • frame.up
        + (-(Real.sin (easedTheta t))) • frame.right).dot
      (frame.pitch • frame.forward
        + (-frame.radius * Real.sin (easedTheta t) * dThetaDt t) • frame.right
        + (frame.radius * Real.cos (easedTheta t) * dThetaDt t) • frame.up)
      = frame.radius * dThetaDt t := by
    simp only [Vec3.smul_def, Vec3.add_def, Vec3.dot_def]
    linear_combination (Real.cos (easedTheta t) * frame.pitch) * hFU
      - (Real.sin (easedTheta t) * frame.pitch) * hFR
      + (Real.cos (easedTheta t) * (-frame.radius * Real.sin (easedTheta t) * dThetaDt t)
          - Real.sin (easedTheta t) * (frame.radius * Real.cos (easedTheta t) * dThetaDt t)) * hUR
      + (Real.cos (easedTheta t) * (frame.radius * Real.cos (easedTheta t) * dThetaDt t)) * hU
      - (Real.sin (easedTheta t) * (-frame.radius * Real.sin (easedTheta t) * dThetaDt t)) * hR
      + (frame.radius * dThetaDt t) * hs
  have hlenpos : 0 < (frame.pitch • frame.forward
      + (-frame.radius * Real.sin (easedTheta t) * dThetaDt t) • frame.right
      + (frame.radius * Real.cos (easedTheta t) * dThetaDt t) • frame.up).length := by
    unfold Vec3.length
    rw [hv1]
    apply Real.sqrt_pos.mpr
    nlinarith [hp, sq_nonneg (frame.radius * dThetaDt t)]
  simp only [sampleBarrelRollAnalytically]
  rw [Vec3.normalize_of_unit hu1]
  rw [Vec3.dot_comm]
  rw [Vec3.dot_normalize_left]
  rw [if_neg hlenpos.ne.symm]
  rw [Vec3.dot_comm, hdotuv]
  have hrd : 0 < frame.radius * dThetaDt t := mul_pos hr hd
  positivity

/-- Evaluating the sampler on the one-loop table at progress 0.25
dispatches to the closed-form roll at local parameter 0.25. -/
theorem sampleHybrid_rollSection_eval :
    sampleHybridTrack 0.25 [rollSection] straightSpline [] [] false
      = some ⟨(sampleBarrelRollAnalytically unitFrame 0.25).point,
              (sampleBarrelRollAnalytically unitFrame 0.25).tangent,
              (sampleBarrelRollAnalytically unitFrame 0.25).up, true⟩ := by
  have hclamp : clampProgress 0.25 = 0.25 := by
    unfold clampProgress
    rw [min_eq_left (by norm_num), max_eq_right (by norm_num)]
  have hcont : sectionContains (clampProgress 0.25) rollSection = true := by
    rw [hclamp]
    simp only [sectionContains, rollSection, Bool.and_eq_true, decide_eq_true_eq]
    norm_num
  have hchoose : chooseSection [rollSection] (clampProgress 0.25) = some rollSection := by
    unfold chooseSection
    rw [List.find?_cons_of_pos _ hcont]
  have harg : (clampProgress 0.25 - rollSection.startProgress)
      / (rollSection.endProgress - rollSection.startProgress) = 0.25 := by
    rw [hclamp]
    norm_num [rollSection]
  simp only [sampleHybridTrack]
  rw [if_neg (by simp : ¬(([rollSection] : List TrackSection).isEmpty) = true)]
  rw [hchoose]
  simp only []
  rw [show rollSection.kind = SectionKind.roll unitFrame 0 from rfl]
  simp only []
  rw [harg]

/-- **C3 counterexample.**  On a table holding one loop section (the
claim's radius-5, pitch-12 frame), the sampler's frame at progress 0.25
has a strictly positive `up`·`tangent`: the returned up is not
perpendicular to the returned tangent at an interior loop parameter. -/
theorem sampleHybridTrack_roll_up_not_perp :
    0 < upDotTangent (sampleHybridTrack 0.25 [rollSection] straightSpline [] [] false) := by
  rw [sampleHybrid_rollSection_eval]
  simp only [upDotTangent]
  have hd : dThetaDt 0.25 = 2 * π := by
    unfold dThetaDt
    rw [show (2 * π) * (0.25 : ℝ) = π / 2 by ring, Real.cos_pi_div_two]
    ring
  have hdpos : 0 < dThetaDt 0.25 := by
    rw [hd]
    positivity
  exact barrelRoll_up_dot_tangent_pos unitFrame unitFrame_orthonormal
    (by norm_num [unitFrame]) (by norm_num [unitFrame]) hdpos

/-- Witness for C3 at the one-loop table: the hypotheses hold there and
the theorem applies to the sampled frame. -/
theorem sampleHybridTrack_frame_props_witness :
    (∀ u, (straightSpline.getTangent u).lengthSq ≠ 0) ∧
    (∀ s ∈ [rollSection], ∀ fr pi, s.kind = SectionKind.roll fr pi →
      OrthonormalEntryBasis fr ∧ 0 < fr.pitch) ∧
    ((sampleBarrelRollAnalytically unitFrame 0.25).tangent.lengthSq = 1 ∧
     (sampleBarrelRollAnalytically unitFrame 0.25).up.lengthSq = 1) := by
  have h1 : ∀ u, (straightSpline.getTangent u).lengthSq ≠ 0 := by
    intro u
    norm_num [straightSpline, Vec3.lengthSq, Vec3.dot]
  have h2 : ∀ s ∈ [rollSection], ∀ fr pi, s.kind = SectionKind.roll fr pi →
      OrthonormalEntryBasis fr ∧ 0 < fr.pitch := by
    intro s hs fr pi hk
    rw [List.mem_singleton] at hs
    subst hs
    rw [show rollSection.kind = SectionKind.roll unitFrame 0 from rfl] at hk
    injection hk with h3 h4
    subst h3
    exact ⟨unitFrame_orthonormal, by norm_num [unitFrame]⟩
  have c := sampleHybridTrack_frame_props 0.25 [rollSection] straightSpline [] [] false
    ⟨(sampleBarrelRollAnalytically unitFrame 0.25).point,
     (sampleBarrelRollAnalytically unitFrame 0.25).tangent,
     (sampleBarrelRollAnalytically unitFrame 0.25).up, true⟩
    h1 h2 sampleHybrid_rollSection_eval
  exact ⟨h1, h2, c.1, c.2.1⟩
